import Mathlib

/-!
Shallow embedding of the ingestion utilities of this repository:
`code/utils/populate_db.py` (document loading, splitting, chunk-identifier
assignment, incremental add to the Chroma store, `populate_database`) and
`Flask backend/utils/clear_db.py` (`clear_chroma_database`).

Pure Python functions become Lean functions; the filesystem and the Chroma
store become an explicit `World` state; collaborator calls that may raise
are driven by an `Env` of optional faults, and exceptions are modelled with
`Except`.
-/

/-- A text chunk as produced by the splitter: the parent document's
`source` and `page` metadata, the chunk text, and the `id` metadata slot
that `calculate_chunk_ids` fills in (empty before assignment). -/
structure Chunk where
  source : String
  page : Nat
  content : String
  id : String := ""
deriving DecidableEq

/-- The page id computed in the loop body of `calculate_chunk_ids`:
the Python `f"{source}:{page}"`. -/
def pageIdOf (c : Chunk) : String := c.source ++ ":" ++ Nat.repr c.page

/-- The loop of `calculate_chunk_ids`, carrying `last_page_id` and
`current_chunk_index`. Python mutates the chunks in place; here each chunk
is returned with its `id` field set. -/
def calcIdsAux (last : Option String) (idx : Nat) : List Chunk → List Chunk
  | [] => []
  | c :: cs =>
    let currentPageId := pageIdOf c
    let newIdx := if some currentPageId = last then idx + 1 else 0
    let chunkId := currentPageId ++ ":" ++ Nat.repr newIdx
    { c with id := chunkId } :: calcIdsAux (some currentPageId) newIdx cs

/-- `calculate_chunk_ids` from `populate_db.py`: `last_page_id` starts as
`None` and `current_chunk_index` as 0. -/
def calculate_chunk_ids (chunks : List Chunk) : List Chunk :=
  calcIdsAux none 0 chunks

/-! ### Decimal string representation

`Nat.repr` (what Python's f-string interpolation of a non-negative int
produces) is injective and never contains a colon.  These facts underpin
uniqueness of the `source:page:index` identifiers. -/

/-- Big-endian decimal digit characters of `n`; the list underlying
`Nat.repr n`. -/
def decRep (n : Nat) : List Char :=
  if _h : n < 10 then [Nat.digitChar n]
  else decRep (n / 10) ++ [Nat.digitChar (n % 10)]
termination_by n
decreasing_by exact Nat.div_lt_self (by omega) (by omega)

theorem toDigitsCore_eq_decRep :
    ∀ (fuel n : Nat) (ds : List Char), n < fuel →
      Nat.toDigitsCore 10 fuel n ds = decRep n ++ ds := by
  intro fuel
  induction fuel with
  | zero => intro n ds h; omega
  | succ f ih =>
    intro n ds h
    rw [Nat.toDigitsCore]
    by_cases h10 : n < 10
    · have hdiv : n / 10 = 0 := Nat.div_eq_of_lt h10
      rw [decRep]
      simp [hdiv, h10, Nat.mod_eq_of_lt h10]
    · have hdiv : ¬ n / 10 = 0 := by omega
      have hlt : n / 10 < f := by omega
      rw [decRep]
      simp only [h10, dite_false, if_neg hdiv, ih (n / 10) _ hlt,
        List.append_assoc, List.singleton_append]

theorem repr_data (n : Nat) : (Nat.repr n).data = decRep n := by
  show (Nat.toDigits 10 n).asString.data = decRep n
  rw [Nat.toDigits, toDigitsCore_eq_decRep (n + 1) n [] (Nat.lt_succ_self n),
    List.append_nil]
  rfl

/-- Numeric value of a decimal digit character. -/
def digitVal (c : Char) : Nat := c.toNat - 48

/-- Value of a big-endian decimal digit string. -/
def decVal (l : List Char) : Nat := l.foldl (fun a c => 10 * a + digitVal c) 0

theorem decVal_append_singleton (l : List Char) (c : Char) :
    decVal (l ++ [c]) = 10 * decVal l + digitVal c := by
  show List.foldl _ 0 (l ++ [c]) = _
  rw [List.foldl_append]
  rfl

theorem digitVal_digitChar (m : Nat) (h : m < 10) :
    digitVal (Nat.digitChar m) = m := by
  interval_cases m <;> rfl

theorem decVal_decRep (n : Nat) : decVal (decRep n) = n := by
  induction n using Nat.strong_induction_on with
  | _ n ih =>
    by_cases h : n < 10
    · rw [decRep]
      simp only [h, dite_true]
      show decVal ([] ++ [Nat.digitChar n]) = n
      rw [decVal_append_singleton, digitVal_digitChar n h]
      show 10 * 0 + n = n
      omega
    · rw [decRep]
      simp only [h, dite_false]
      rw [decVal_append_singleton, ih (n / 10) (Nat.div_lt_self (by omega) (by omega)),
        digitVal_digitChar _ (Nat.mod_lt _ (by omega))]
      omega

theorem repr_injective {a b : Nat} (h : Nat.repr a = Nat.repr b) : a = b := by
  have hd : decRep a = decRep b := by
    rw [← repr_data, ← repr_data, h]
  calc a = decVal (decRep a) := (decVal_decRep a).symm
    _ = decVal (decRep b) := by rw [hd]
    _ = b := decVal_decRep b

theorem digitChar_eq_star (m : Nat) (h : 16 ≤ m) : Nat.digitChar m = '*' := by
  unfold Nat.digitChar
  iterate 16 rw [if_neg (by omega)]

theorem digitChar_ne_colon (m : Nat) : Nat.digitChar m ≠ ':' := by
  by_cases h : m < 16
  · interval_cases m <;> decide
  · rw [digitChar_eq_star m (by omega)]
    decide

theorem decRep_ne_colon (n : Nat) : ∀ c ∈ decRep n, c ≠ ':' := by
  induction n using Nat.strong_induction_on with
  | _ n ih =>
    by_cases h : n < 10
    · rw [decRep]
      simp only [h, dite_true]
      intro c hc
      rw [List.mem_singleton] at hc
      subst hc
      exact digitChar_ne_colon n
    · rw [decRep]
      simp only [h, dite_false]
      intro c hc
      rcases List.mem_append.1 hc with hc | hc
      · exact ih (n / 10) (Nat.div_lt_self (by omega) (by omega)) c hc
      · rw [List.mem_singleton] at hc
        subst hc
        exact digitChar_ne_colon _

theorem repr_ne_colon (n : Nat) : ∀ c ∈ (Nat.repr n).data, c ≠ ':' := by
  rw [repr_data]
  exact decRep_ne_colon n

/-- Splitting at the last colon: if the parts after the colon are
colon-free, a colon-separated concatenation determines both sides. -/
theorem colon_split :
    ∀ (l₁ l₂ r₁ r₂ : List Char), (∀ c ∈ r₁, c ≠ ':') → (∀ c ∈ r₂, c ≠ ':') →
      l₁ ++ ':' :: r₁ = l₂ ++ ':' :: r₂ → l₁ = l₂ ∧ r₁ = r₂ := by
  intro l₁
  induction l₁ with
  | nil =>
    intro l₂ r₁ r₂ h₁ h₂ he
    cases l₂ with
    | nil =>
      refine ⟨rfl, ?_⟩
      simpa using he
    | cons d l₂ =>
      exfalso
      simp only [List.nil_append, List.cons_append, List.cons.injEq] at he
      exact h₁ ':' (by rw [he.2]; simp) rfl
  | cons a l₁ ih =>
    intro l₂ r₁ r₂ h₁ h₂ he
    cases l₂ with
    | nil =>
      exfalso
      simp only [List.nil_append, List.cons_append, List.cons.injEq] at he
      exact h₂ ':' (by rw [← he.2]; simp) rfl
    | cons d l₂ =>
      simp only [List.cons_append, List.cons.injEq] at he
      obtain ⟨rfl, he⟩ := he
      obtain ⟨hl, hr⟩ := ih l₂ r₁ r₂ h₁ h₂ he
      exact ⟨by rw [hl], hr⟩

/-! ### Group keys and identifier strings -/

/-- The `(source, page)` metadata pair of a chunk. -/
def groupKey (c : Chunk) : String × Nat := (c.source, c.page)

/-- String rendering of a group key: the Python `f"{source}:{page}"`. -/
def pageStr (k : String × Nat) : String := k.1 ++ ":" ++ Nat.repr k.2

/-- The full identifier string `f"{source}:{page}:{index}"`. -/
def chunkIdStr (k : String × Nat) (n : Nat) : String :=
  pageStr k ++ ":" ++ Nat.repr n

theorem pageIdOf_eq_pageStr (c : Chunk) : pageIdOf c = pageStr (groupKey c) := rfl

theorem append_colon_data (s t : String) :
    (s ++ ":" ++ t).data = s.data ++ ':' :: t.data := by
  have h : (":" : String).data = [':'] := rfl
  rw [String.data_append, String.data_append, h, List.append_assoc,
    List.singleton_append]

theorem pageStr_injective {k₁ k₂ : String × Nat} (h : pageStr k₁ = pageStr k₂) :
    k₁ = k₂ := by
  have hd : k₁.1.data ++ ':' :: (Nat.repr k₁.2).data
      = k₂.1.data ++ ':' :: (Nat.repr k₂.2).data := by
    have hdata := congrArg String.data h
    rwa [pageStr, pageStr, append_colon_data, append_colon_data] at hdata
  obtain ⟨h1, h2⟩ :=
    colon_split _ _ _ _ (repr_ne_colon k₁.2) (repr_ne_colon k₂.2) hd
  have hs : k₁.1 = k₂.1 := String.ext h1
  have hn : k₁.2 = k₂.2 := repr_injective (String.ext h2)
  exact Prod.ext hs hn

theorem chunkIdStr_injective {k₁ k₂ : String × Nat} {n₁ n₂ : Nat}
    (h : chunkIdStr k₁ n₁ = chunkIdStr k₂ n₂) : k₁ = k₂ ∧ n₁ = n₂ := by
  have hd : (pageStr k₁).data ++ ':' :: (Nat.repr n₁).data
      = (pageStr k₂).data ++ ':' :: (Nat.repr n₂).data := by
    have hdata := congrArg String.data h
    rwa [chunkIdStr, chunkIdStr, append_colon_data, append_colon_data] at hdata
  obtain ⟨h1, h2⟩ :=
    colon_split _ _ _ _ (repr_ne_colon n₁) (repr_ne_colon n₂) hd
  exact ⟨pageStr_injective (String.ext h1), repr_injective (String.ext h2)⟩

/-! ### Index sequences -/

/-- The index sequence the loop of `calculate_chunk_ids` assigns, with the
previous-key comparison taken on the `(source, page)` pair: increment while
the key equals the previous chunk's key, reset to 0 on change. -/
def resetIdxs (last : Option (String × Nat)) (idx : Nat) : List Chunk → List Nat
  | [] => []
  | c :: cs =>
    (if some (groupKey c) = last then idx + 1 else 0)
      :: resetIdxs (some (groupKey c))
           (if some (groupKey c) = last then idx + 1 else 0) cs

/-- Occurrence index of each chunk: how many earlier chunks carry the same
`(source, page)` key.  For an input grouped by key this is the 0-based
position of the chunk within its group. -/
def occIdxs (seen : List (String × Nat)) : List Chunk → List Nat
  | [] => []
  | c :: cs => seen.count (groupKey c) :: occIdxs (seen ++ [groupKey c]) cs

/-- The grouping invariant on a key sequence: whenever two positions carry
the same key, every position in between carries that key as well, i.e. all
chunks sharing a key are adjacent. -/
def GroupedKeys (ks : List (String × Nat)) : Prop :=
  ∀ k, k < ks.length → ∀ j, j ≤ k → ∀ i, i ≤ j →
    ks[i]? = ks[k]? → ks[j]? = ks[i]?

/-- The grouping invariant on a chunk sequence. -/
def Grouped (l : List Chunk) : Prop := GroupedKeys (l.map groupKey)

/-- Executable check of the grouping invariant. -/
def groupedKeysB (ks : List (String × Nat)) : Bool :=
  (List.range ks.length).all fun k =>
    (List.range (k + 1)).all fun j =>
      (List.range (j + 1)).all fun i =>
        ks[i]? != ks[k]? || ks[j]? == ks[i]?

instance GroupedKeys.dec (ks : List (String × Nat)) : Decidable (GroupedKeys ks) :=
  decidable_of_iff (groupedKeysB ks = true) (by
    unfold groupedKeysB GroupedKeys
    simp only [List.all_eq_true, List.mem_range, Bool.or_eq_true, bne_iff_ne, ne_eq,
      beq_iff_eq, Nat.lt_succ_iff]
    constructor
    · intro h k hk j hj i hij heq
      rcases h k hk j hj i hij with h' | h'
      · exact absurd heq h'
      · exact h'
    · intro h k hk j hj i hij
      by_cases heq : ks[i]? = ks[k]?
      · exact Or.inr (h k hk j hj i hij heq)
      · exact Or.inl heq)

instance Grouped.dec (l : List Chunk) : Decidable (Grouped l) :=
  GroupedKeys.dec (l.map groupKey)

theorem pageStr_cond (c : Chunk) (last : Option (String × Nat)) :
    (some (pageIdOf c) = last.map pageStr) ↔ some (groupKey c) = last := by
  cases last with
  | none => simp
  | some k =>
    show some (pageIdOf c) = some (pageStr k) ↔ _
    constructor
    · intro h
      have h' : pageIdOf c = pageStr k := by injection h
      rw [pageIdOf_eq_pageStr] at h'
      rw [pageStr_injective h']
    · intro h
      have h' : groupKey c = k := by injection h
      rw [pageIdOf_eq_pageStr, h']

/-- The ids assigned by the loop of `calculate_chunk_ids` are exactly
`source:page:index` with the reset-on-key-change index sequence. -/
theorem calcIdsAux_ids (cs : List Chunk) :
    ∀ (last : Option (String × Nat)) (idx : Nat),
      (calcIdsAux (last.map pageStr) idx cs).map (fun c => c.id)
        = List.zipWith (fun c n => chunkIdStr (groupKey c) n) cs
            (resetIdxs last idx cs) := by
  induction cs with
  | nil => intro last idx; rfl
  | cons c cs ih =>
    intro last idx
    by_cases h : some (groupKey c) = last
    · have h' : some (pageIdOf c) = last.map pageStr := (pageStr_cond c last).2 h
      simp only [calcIdsAux, resetIdxs, if_pos h, if_pos h', List.map_cons,
        List.zipWith_cons_cons]
      exact congrArg₂ List.cons rfl (ih (some (groupKey c)) (idx + 1))
    · have h' : ¬ some (pageIdOf c) = last.map pageStr := fun hc =>
        h ((pageStr_cond c last).1 hc)
      simp only [calcIdsAux, resetIdxs, if_neg h, if_neg h', List.map_cons,
        List.zipWith_cons_cons]
      exact congrArg₂ List.cons rfl (ih (some (groupKey c)) 0)

theorem getLast_append_singleton (seen : List (String × Nat)) (k : String × Nat) :
    (seen ++ [k])[(seen ++ [k]).length - 1]? = some k := by
  have h : (seen ++ [k]).length - 1 = seen.length := by simp
  rw [h, List.getElem?_append_right (Nat.le_refl seen.length)]
  simp

/-- Under the grouping invariant, the reset-on-key-change index sequence of
the code coincides with the within-group occurrence index. `seen` holds the
keys of the chunks already processed; the invariant ties the loop state
`(last, idx)` to `seen`. -/
theorem resetIdxs_eq_occIdxs :
    ∀ (cs : List Chunk) (seen : List (String × Nat))
      (last : Option (String × Nat)) (idx : Nat),
      ((last = none ∧ seen = []) ∨
        (∃ k, last = some k ∧ seen[seen.length - 1]? = some k ∧
          seen.count k = idx + 1)) →
      GroupedKeys (seen ++ cs.map groupKey) →
      resetIdxs last idx cs = occIdxs seen cs := by
  intro cs
  induction cs with
  | nil => intro seen last idx _ _; rfl
  | cons c cs ih =>
    intro seen last idx hinv hg
    have hg' : GroupedKeys ((seen ++ [groupKey c]) ++ cs.map groupKey) := by
      have he : (seen ++ [groupKey c]) ++ cs.map groupKey
          = seen ++ (c :: cs).map groupKey := by simp
      rw [he]
      exact hg
    by_cases h : some (groupKey c) = last
    · rcases hinv with ⟨hl, _⟩ | ⟨k, hl, hlast, hcount⟩
      · rw [hl] at h
        exact absurd h (by simp)
      · subst hl
        have hk : groupKey c = k := Option.some.inj h
        subst hk
        simp only [resetIdxs, occIdxs, if_pos h, hcount]
        refine congrArg₂ List.cons rfl ?_
        apply ih (seen ++ [groupKey c]) (some (groupKey c)) (idx + 1) ?_ hg'
        refine Or.inr ⟨groupKey c, rfl, getLast_append_singleton _ _, ?_⟩
        rw [List.count_append, hcount, List.count_singleton_self]
    · have hnotmem : groupKey c ∉ seen := by
        rcases hinv with ⟨hl, hs⟩ | ⟨k, hl, hlast, hcount⟩
        · rw [hs]
          exact List.not_mem_nil _
        · intro hmem
          obtain ⟨q, hq⟩ := List.mem_iff_getElem?.1 hmem
          have hqlt : q < seen.length := by
            by_contra hge
            rw [List.getElem?_eq_none (by omega)] at hq
            exact Option.noConfusion hq
          have hkc : k ≠ groupKey c := fun he => h (by rw [hl, he])
          have hLk : (seen ++ (c :: cs).map groupKey)[seen.length]?
              = some (groupKey c) := by
            rw [List.getElem?_append_right (Nat.le_refl _)]
            simp
          have hLq : (seen ++ (c :: cs).map groupKey)[q]? = some (groupKey c) := by
            rw [List.getElem?_append_left hqlt]
            exact hq
          have hLj : (seen ++ (c :: cs).map groupKey)[seen.length - 1]?
              = some k := by
            rw [List.getElem?_append_left (by omega)]
            exact hlast
          have hmid := hg seen.length
            (by simp only [List.length_append, List.length_map, List.length_cons]; omega)
            (seen.length - 1) (by omega) q (by omega) (by rw [hLq, hLk])
          rw [hLj, hLq] at hmid
          exact hkc (Option.some.inj hmid)
      simp only [resetIdxs, occIdxs, if_neg h, List.count_eq_zero.2 hnotmem]
      refine congrArg₂ List.cons rfl ?_
      apply ih (seen ++ [groupKey c]) (some (groupKey c)) 0 ?_ hg'
      refine Or.inr ⟨groupKey c, rfl, getLast_append_singleton _ _, ?_⟩
      rw [List.count_append, List.count_eq_zero.2 hnotmem, List.count_singleton_self]

/-- Under the grouping invariant, the ids assigned by `calculate_chunk_ids`
are exactly `source:page:index` with the within-group occurrence index. -/
theorem calcIds_occ (chunks : List Chunk) (hg : Grouped chunks) :
    (calculate_chunk_ids chunks).map (fun c => c.id)
      = List.zipWith (fun c n => chunkIdStr (groupKey c) n) chunks
          (occIdxs [] chunks) := by
  have h2 := resetIdxs_eq_occIdxs chunks [] none 0 (Or.inl ⟨rfl, rfl⟩) (by
    rw [List.nil_append]
    exact hg)
  rw [← h2]
  exact calcIdsAux_ids chunks none 0

theorem occIdxs_getElem? :
    ∀ (cs : List Chunk) (seen : List (String × Nat)) (i : Nat),
      (occIdxs seen cs)[i]?
        = (cs[i]?).map fun c =>
            (seen ++ (cs.take i).map groupKey).count (groupKey c) := by
  intro cs
  induction cs with
  | nil => intro seen i; rfl
  | cons c cs ih =>
    intro seen i
    cases i with
    | zero => simp [occIdxs]
    | succ i =>
      simp only [occIdxs, List.getElem?_cons_succ]
      rw [ih (seen ++ [groupKey c]) i]
      cases hc : cs[i]? with
      | none => rfl
      | some d => simp [List.append_assoc]

theorem occIdxs_length :
    ∀ (cs : List Chunk) (seen : List (String × Nat)),
      (occIdxs seen cs).length = cs.length := by
  intro cs
  induction cs with
  | nil => intro seen; rfl
  | cons c cs ih => intro seen; simp only [occIdxs, List.length_cons, ih]

theorem count_take_lt {α : Type} [BEq α] [LawfulBEq α] (l : List α) (a : α) (i j : Nat)
    (hij : i < j) (hj : j ≤ l.length) (ha : l[i]? = some a) :
    (l.take i).count a < (l.take j).count a := by
  have hi : i < l.length := by omega
  have hsplit : l.take j = l.take i ++ (l.drop i).take (j - i) := by
    rw [← List.take_add]
    congr 1
    omega
  have hdrop : l.drop i = l[i] :: l.drop (i + 1) := List.drop_eq_getElem_cons hi
  have ha' : l[i] = a := by
    rw [List.getElem?_eq_getElem hi] at ha
    exact Option.some.inj ha
  have hji : j - i = (j - i - 1) + 1 := by omega
  rw [hsplit, List.count_append, hdrop, ha', hji, List.take_succ_cons,
    List.count_cons_self]
  omega

/-- Under the grouping invariant, the identifiers assigned by
`calculate_chunk_ids` are pairwise distinct. -/
theorem ids_nodup (chunks : List Chunk) (hg : Grouped chunks) :
    ((calculate_chunk_ids chunks).map (fun c => c.id)).Nodup := by
  rw [calcIds_occ chunks hg]
  refine List.pairwise_iff_getElem.mpr ?_
  intro i j hi hj hij
  rw [List.getElem_zipWith, List.getElem_zipWith]
  intro heq
  obtain ⟨hkey, hocc⟩ := chunkIdStr_injective heq
  have hic : i < chunks.length := List.lt_length_left_of_zipWith hi
  have hjc : j < chunks.length := List.lt_length_left_of_zipWith hj
  have hio : i < (occIdxs [] chunks).length := List.lt_length_right_of_zipWith hi
  have hjo : j < (occIdxs [] chunks).length := List.lt_length_right_of_zipWith hj
  have h1 := occIdxs_getElem? chunks [] i
  have h2 := occIdxs_getElem? chunks [] j
  rw [List.getElem?_eq_getElem hio, List.getElem?_eq_getElem hic] at h1
  rw [List.getElem?_eq_getElem hjo, List.getElem?_eq_getElem hjc] at h2
  have h1' : (occIdxs [] chunks)[i]
      = ((chunks.take i).map groupKey).count (groupKey chunks[i]) := by
    have := Option.some.inj h1
    simpa using this
  have h2' : (occIdxs [] chunks)[j]
      = ((chunks.take j).map groupKey).count (groupKey chunks[j]) := by
    have := Option.some.inj h2
    simpa using this
  have hcnt := count_take_lt (chunks.map groupKey) (groupKey chunks[j]) i j hij
    (by simp only [List.length_map]; omega)
    (by
      rw [List.getElem?_map, List.getElem?_eq_getElem hic]
      show some (groupKey chunks[i]) = some (groupKey chunks[j])
      rw [hkey])
  rw [List.map_take] at h1' h2'
  rw [hkey] at h1'
  rw [h1', h2'] at hocc
  exact absurd hocc (Nat.ne_of_lt hcnt)

/-! ### World, environment, and effectful operations -/

/-- A source document as produced by the loader: text plus the
`{source, page}` metadata the splitter copies onto each chunk. -/
structure DocumentRec where
  source : String
  page : Nat
  content : String
deriving DecidableEq

/-- A record of the Chroma store: identifier (primary key) and stored
text. -/
structure StoreRec where
  rid : String
  text : String
deriving DecidableEq

/-- Collaborator calls issued against the outside world, logged so that
properties like "no delete was issued" can be stated. -/
inductive Op where
  | rmtree
  | opendb
  | get
  | delete (ids : List String)
  | add (ids : List String)
  | load
  | split
deriving DecidableEq

/-- The mutable world: the Chroma store directory (`none` when the
directory does not exist; opening a non-existent store reads as an empty
record set) and the log of collaborator calls issued so far. -/
structure World where
  store : Option (List StoreRec)
  log : List Op
deriving DecidableEq

/-- Environment of collaborators: whether the `data` directory exists, the
documents the loader returns, the splitter, and one optional fault per
collaborator call site — `some msg` makes that call raise an exception
with message `msg` when reached. -/
structure Env where
  dataExists : Bool
  docs : List DocumentRec
  splitFn : List DocumentRec → List Chunk
  loadFault : Option String := none
  splitFault : Option String := none
  openFault : Option String := none
  getFault : Option String := none
  addFault : Option String := none
  deleteFault : Option String := none
  rmtreeFault : Option String := none

/-- No collaborator fault is armed. -/
def Env.nominal (e : Env) : Prop :=
  e.loadFault = none ∧ e.splitFault = none ∧ e.openFault = none ∧
    e.getFault = none ∧ e.addFault = none ∧ e.deleteFault = none ∧
    e.rmtreeFault = none

instance Env.nominal.dec (e : Env) : Decidable e.nominal := by
  unfold Env.nominal
  infer_instance

/-- Identifiers currently in the store; an absent store reads as empty. -/
def storeIds (w : World) : List String :=
  (w.store.getD []).map fun r => r.rid

/-- `load_documents`: `PyPDFDirectoryLoader(DATA_PATH).load()`. -/
def load_documents (env : Env) (w : World) :
    Except (String × World) (List DocumentRec × World) :=
  let w1 := { w with log := w.log ++ [Op.load] }
  match env.loadFault with
  | some m => .error (m, w1)
  | none => .ok (env.docs, w1)

/-- `split_documents`: the `RecursiveCharacterTextSplitter` collaborator
applied to the loaded documents. -/
def split_documents (env : Env) (docs : List DocumentRec) (w : World) :
    Except (String × World) (List Chunk × World) :=
  let w1 := { w with log := w.log ++ [Op.split] }
  match env.splitFault with
  | some m => .error (m, w1)
  | none => .ok (env.splitFn docs, w1)

/-- `add_to_chroma` from `populate_db.py`: open the store, compute chunk
ids, fetch the existing ids, and add exactly the chunks whose id is absent,
returning how many were added. -/
def add_to_chroma (env : Env) (chunks : List Chunk) (w : World) :
    Except (String × World) (Nat × World) :=
  let w1 := { w with log := w.log ++ [Op.opendb] }
  match env.openFault with
  | some m => .error (m, w1)
  | none =>
    let chunks_with_ids := calculate_chunk_ids chunks
    let w2 := { w1 with log := w1.log ++ [Op.get] }
    match env.getFault with
    | some m => .error (m, w2)
    | none =>
      let existing_ids := storeIds w2
      let new_chunks := chunks_with_ids.filter fun c => ! existing_ids.contains c.id
      if new_chunks.length ≠ 0 then
        let new_chunk_ids := new_chunks.map fun c => c.id
        let w3 := { w2 with log := w2.log ++ [Op.add new_chunk_ids] }
        match env.addFault with
        | some m => .error (m, w3)
        | none =>
          let w4 := { w3 with
            store := some ((w3.store.getD [])
              ++ new_chunks.map fun c => { rid := c.id, text := c.content }) }
          .ok (new_chunks.length, w4)
      else
        .ok (0, w2)

/-- `clear_database` from `populate_db.py`: remove the Chroma directory
tree if it exists (`shutil.rmtree`). -/
def clear_database (env : Env) (w : World) :
    Except (String × World) World :=
  if (w.store).isSome then
    let w1 := { w with log := w.log ++ [Op.rmtree] }
    match env.rmtreeFault with
    | some m => .error (m, w1)
    | none => .ok { w1 with store := none }
  else
    .ok w

/-- The result dictionary of `populate_database`: `success`, `message`, and
count fields that are present only on the success path. -/
structure PopResult where
  success : Bool
  message : String
  documents_processed : Option Nat := none
  chunks_created : Option Nat := none
  new_documents_added : Option Nat := none
deriving DecidableEq

/-- The result dictionary of `clear_chroma_database`. -/
structure ClearResult where
  success : Bool
  message : String
  chunks_deleted : Nat
deriving DecidableEq

/-- The body of `populate_database` (the contents of its `try`). -/
def populate_body (env : Env) (reset : Bool) (w : World) :
    Except (String × World) (PopResult × World) :=
  match (if reset then clear_database env w else .ok w) with
  | .error e => .error e
  | .ok w1 =>
    if ¬ env.dataExists then
      .ok ({ success := false,
             message := "Data directory 'data' not found. Please create it and add PDF files." },
        w1)
    else
      match load_documents env w1 with
      | .error e => .error e
      | .ok (documents, w2) =>
        if documents.isEmpty then
          .ok ({ success := false,
                 message := "No PDF documents found in 'data' directory." }, w2)
        else
          match split_documents env documents w2 with
          | .error e => .error e
          | .ok (chunks, w3) =>
            match add_to_chroma env chunks w3 with
            | .error e => .error e
            | .ok (new_docs_added, w4) =>
              .ok ({ success := true,
                     message :=
                       if new_docs_added > 0 then "Database populated successfully"
                       else "No new documents were added. All documents already exist in the database.",
                     documents_processed := some documents.length,
                     chunks_created := some chunks.length,
                     new_documents_added := some new_docs_added }, w4)

/-- `populate_database` from `populate_db.py`: the body wrapped in
`try/except`, converting any exception into a failure result carrying the
exception's message. -/
def populate_database (env : Env) (reset : Bool) (w : World) : PopResult × World :=
  match populate_body env reset w with
  | .ok r => r
  | .error (m, w1) =>
    ({ success := false, message := "Error populating database: " ++ m }, w1)

/-- `clear_chroma_database` from `clear_db.py`. There is no enclosing
`try/except`: a collaborator exception propagates to the caller. -/
def clear_chroma_database (env : Env) (w : World) :
    Except (String × World) (ClearResult × World) :=
  let w1 := { w with log := w.log ++ [Op.opendb] }
  match env.openFault with
  | some m => .error (m, w1)
  | none =>
    let w2 := { w1 with log := w1.log ++ [Op.get] }
    match env.getFault with
    | some m => .error (m, w2)
    | none =>
      let existing_ids := storeIds w2
      let deleted_count := existing_ids.length
      if deleted_count > 0 then
        let w3 := { w2 with log := w2.log ++ [Op.delete existing_ids] }
        match env.deleteFault with
        | some m => .error (m, w3)
        | none =>
          let w4 := { w3 with
            store := some ((w3.store.getD []).filter
              fun r => ! existing_ids.contains r.rid) }
          .ok ({ success := true,
                 message := "🗑️ Deleted " ++ Nat.repr deleted_count
                   ++ " documents from Chroma database.",
                 chunks_deleted := deleted_count }, w4)
      else
        .ok ({ success := true,
               message := "📂 No documents to delete in the Chroma database.",
               chunks_deleted := deleted_count }, w2)

theorem storeIds_def (w : World) :
    storeIds w = (w.store.getD []).map fun r => r.rid := rfl

/-- Evaluation of `add_to_chroma` when the open and fetch calls do not
fault: only the diff against the existing ids and the add call remain. -/
theorem add_to_chroma_eq (env : Env) (chunks : List Chunk) (w : World)
    (ho : env.openFault = none) (hg : env.getFault = none) :
    add_to_chroma env chunks w =
      (if ((calculate_chunk_ids chunks).filter
            fun c => ! (storeIds w).contains c.id).length ≠ 0 then
         match env.addFault with
         | some m => .error (m, { w with log := w.log ++
             [Op.opendb, Op.get, Op.add (((calculate_chunk_ids chunks).filter
               fun c => ! (storeIds w).contains c.id).map fun c => c.id)] })
         | none => .ok ((((calculate_chunk_ids chunks).filter
             fun c => ! (storeIds w).contains c.id)).length,
             { store := some ((w.store.getD [])
                 ++ ((calculate_chunk_ids chunks).filter
                   fun c => ! (storeIds w).contains c.id).map
                     fun c => { rid := c.id, text := c.content }),
               log := w.log ++ [Op.opendb, Op.get,
                 Op.add (((calculate_chunk_ids chunks).filter
                   fun c => ! (storeIds w).contains c.id).map fun c => c.id)] })
       else .ok (0, { w with log := w.log ++ [Op.opendb, Op.get] })) := by
  unfold add_to_chroma
  rw [ho, hg]
  simp only [storeIds, List.append_assoc, List.cons_append, List.nil_append]

theorem contains_eq_true_of_mem {l : List String} {a : String} (h : a ∈ l) :
    l.contains a = true := by
  simpa [List.contains] using h

theorem mem_of_contains_eq_true {l : List String} {a : String}
    (h : l.contains a = true) : a ∈ l := by
  simpa [List.contains] using h

/-- After a successful `add_to_chroma`, every chunk id computed by
`calculate_chunk_ids` is present in the store. -/
theorem add_to_chroma_mem (env : Env) (chunks : List Chunk) (w : World)
    (n : Nat) (w' : World)
    (ho : env.openFault = none) (hg : env.getFault = none)
    (hok : add_to_chroma env chunks w = .ok (n, w')) :
    ∀ c ∈ calculate_chunk_ids chunks, c.id ∈ storeIds w' := by
  rw [add_to_chroma_eq env chunks w ho hg] at hok
  intro c hc
  by_cases hlen : ((calculate_chunk_ids chunks).filter
      fun c => ! (storeIds w).contains c.id).length ≠ 0
  · rw [if_pos hlen] at hok
    cases ha : env.addFault with
    | some m =>
      rw [ha] at hok
      exact absurd hok (by simp)
    | none =>
      rw [ha] at hok
      simp only [Except.ok.injEq, Prod.mk.injEq] at hok
      obtain ⟨-, hw⟩ := hok
      subst hw
      rw [storeIds_def]
      simp only [Option.getD_some, List.map_append, List.map_map]
      by_cases hmem : c.id ∈ storeIds w
      · apply List.mem_append_left
        rwa [storeIds_def] at hmem
      · apply List.mem_append_right
        have hcin : c ∈ (calculate_chunk_ids chunks).filter
            fun c => ! (storeIds w).contains c.id := by
          refine List.mem_filter.2 ⟨hc, ?_⟩
          cases hcon : (storeIds w).contains c.id
          · rfl
          · exact absurd (mem_of_contains_eq_true hcon) hmem
        exact List.mem_map.2 ⟨c, hcin, rfl⟩
  · rw [if_neg hlen] at hok
    simp only [Except.ok.injEq, Prod.mk.injEq] at hok
    obtain ⟨-, hw⟩ := hok
    subst hw
    have hfil : (calculate_chunk_ids chunks).filter
        (fun c => ! (storeIds w).contains c.id) = [] :=
      List.length_eq_zero.1 (by omega)
    have hnot := List.filter_eq_nil_iff.1 hfil c hc
    have hcon : (storeIds w).contains c.id = true := by
      cases hcon : (storeIds w).contains c.id
      · exact absurd (by rw [hcon]; rfl) hnot
      · rfl
    exact mem_of_contains_eq_true hcon

/-- `add_to_chroma` on a store that already holds every chunk id: nothing
is added, no add call is issued, and the store is unchanged. -/
theorem add_to_chroma_noop (env : Env) (chunks : List Chunk) (w : World)
    (ho : env.openFault = none) (hg : env.getFault = none)
    (hall : ∀ c ∈ calculate_chunk_ids chunks, c.id ∈ storeIds w) :
    add_to_chroma env chunks w
      = .ok (0, { w with log := w.log ++ [Op.opendb, Op.get] }) := by
  rw [add_to_chroma_eq env chunks w ho hg]
  have hfil : (calculate_chunk_ids chunks).filter
      (fun c => ! (storeIds w).contains c.id) = [] := by
    refine List.filter_eq_nil_iff.2 ?_
    intro c hc
    rw [contains_eq_true_of_mem (hall c hc)]
    simp
  rw [hfil]
  simp

/-- `clear_database` when `shutil.rmtree` does not fault: the store
directory is removed when present. -/
theorem clear_database_nominal (env : Env) (w : World)
    (hr : env.rmtreeFault = none) :
    clear_database env w =
      .ok (if w.store.isSome = true
        then { store := none, log := w.log ++ [Op.rmtree] } else w) := by
  unfold clear_database
  rw [hr]
  by_cases h : w.store.isSome = true
  · rw [if_pos h, if_pos h]
  · rw [if_neg h, if_neg h]

/-- A successful populate run implies the data directory existed, documents
were found, and afterwards every id of the split-and-identified chunks is
in the store. -/
theorem populate_success_ids (env : Env) (reset : Bool) (w : World)
    (hnom : env.nominal)
    (hsucc : (populate_database env reset w).1.success = true) :
    env.dataExists = true ∧ env.docs ≠ [] ∧
      ∀ c ∈ calculate_chunk_ids (env.splitFn env.docs),
        c.id ∈ storeIds (populate_database env reset w).2 := by
  obtain ⟨hl, hs, ho, hg, ha, hd, hr⟩ := hnom
  cases hbody : populate_body env reset w with
  | error e =>
    have hpd : populate_database env reset w
        = ({ success := false, message := "Error populating database: " ++ e.1 }, e.2) := by
      unfold populate_database
      rw [hbody]
    rw [hpd] at hsucc
    simp at hsucc
  | ok rw1 =>
    obtain ⟨r, w'⟩ := rw1
    have hpd : populate_database env reset w = (r, w') := by
      unfold populate_database
      rw [hbody]
    rw [hpd] at hsucc ⊢
    obtain ⟨w1, hw1⟩ : ∃ w1,
        (if reset then clear_database env w else Except.ok w) = .ok w1 := by
      by_cases hres : reset = true
      · rw [if_pos hres, clear_database_nominal env w hr]
        exact ⟨_, rfl⟩
      · rw [if_neg hres]
        exact ⟨w, rfl⟩
    unfold populate_body at hbody
    rw [hw1] at hbody
    simp only [] at hbody
    by_cases hde : env.dataExists = true
    · have hcond : ¬ (¬ env.dataExists = true) := by rw [hde]; simp
      rw [if_neg hcond] at hbody
      simp only [load_documents, hl] at hbody
      by_cases hdocs : env.docs.isEmpty = true
      · rw [if_pos hdocs] at hbody
        simp only [Except.ok.injEq, Prod.mk.injEq] at hbody
        rw [← hbody.1] at hsucc
        simp at hsucc
      · rw [if_neg hdocs] at hbody
        simp only [split_documents, hs] at hbody
        cases hadd : add_to_chroma env (env.splitFn env.docs)
            { store := w1.store, log := w1.log ++ [Op.load] ++ [Op.split] } with
        | error e =>
          rw [hadd] at hbody
          exact absurd hbody (by simp)
        | ok ndw =>
          obtain ⟨nd, w4⟩ := ndw
          rw [hadd] at hbody
          simp only [Except.ok.injEq, Prod.mk.injEq] at hbody
          refine ⟨hde, fun hnil => by rw [hnil] at hdocs; exact hdocs rfl, ?_⟩
          rw [← hbody.2]
          exact add_to_chroma_mem env (env.splitFn env.docs) _ nd w4 ho hg hadd
    · have hcond : (¬ env.dataExists = true) := hde
      rw [if_pos hcond] at hbody
      simp only [Except.ok.injEq, Prod.mk.injEq] at hbody
      rw [← hbody.1] at hsucc
      simp at hsucc

/-- A populate run (no reset) against a store that already holds every
chunk id: reports zero additions and leaves the store untouched. -/
theorem populate_noop (env : Env) (w : World)
    (hl : env.loadFault = none) (hs : env.splitFault = none)
    (ho : env.openFault = none) (hg : env.getFault = none)
    (hde : env.dataExists = true) (hne : env.docs ≠ [])
    (hall : ∀ c ∈ calculate_chunk_ids (env.splitFn env.docs), c.id ∈ storeIds w) :
    populate_database env false w
      = ({ success := true,
           message := "No new documents were added. All documents already exist in the database.",
           documents_processed := some env.docs.length,
           chunks_created := some (env.splitFn env.docs).length,
           new_documents_added := some 0 },
         { w with log := w.log ++ [Op.load, Op.split, Op.opendb, Op.get] }) := by
  unfold populate_database populate_body
  have hfalse : ¬ (false = true) := by simp
  rw [if_neg hfalse]
  simp only []
  have hcond : ¬ (¬ env.dataExists = true) := by rw [hde]; simp
  rw [if_neg hcond]
  simp only [load_documents, hl]
  have hdocs : env.docs.isEmpty = false := by
    cases hd : env.docs
    · exact absurd hd hne
    · rfl
  have hcond2 : ¬ (env.docs.isEmpty = true) := by rw [hdocs]; simp
  rw [if_neg hcond2]
  simp only [split_documents, hs]
  rw [add_to_chroma_noop env (env.splitFn env.docs)
    { store := w.store, log := w.log ++ [Op.load] ++ [Op.split] } ho hg hall]
  simp only []
  have hzero : ¬ ((0 : Nat) > 0) := by omega
  rw [if_neg hzero]
  simp [List.append_assoc]

/-! ### Claims -/

/-- Claim C1: for every chunk sequence grouped by `(source, page)` in
input order, `calculate_chunk_ids` assigns each chunk the identifier
`source:page:index`, where `index` is the chunk's 0-based position within
its `(source, page)` group (the count of earlier chunks with the same key),
resetting to 0 exactly when the key changes. -/
theorem claim_C1 (chunks : List Chunk) (hg : Grouped chunks) :
    (calculate_chunk_ids chunks).map (fun c => c.id)
      = List.zipWith
          (fun c n => c.source ++ ":" ++ Nat.repr c.page ++ ":" ++ Nat.repr n)
          chunks (occIdxs [] chunks) :=
  calcIds_occ chunks hg

/-- The two-document scenario of the spec: `doc1.pdf` page 0 with three
chunks followed by `doc2.pdf` page 0 with two chunks. -/
def scenarioChunks : List Chunk :=
  [⟨"doc1.pdf", 0, "c1", ""⟩, ⟨"doc1.pdf", 0, "c2", ""⟩, ⟨"doc1.pdf", 0, "c3", ""⟩,
   ⟨"doc2.pdf", 0, "c4", ""⟩, ⟨"doc2.pdf", 0, "c5", ""⟩]

theorem claim_C1_witness :
    Grouped scenarioChunks
    ∧ (calculate_chunk_ids scenarioChunks).map (fun c => c.id)
        = List.zipWith
            (fun c n => c.source ++ ":" ++ Nat.repr c.page ++ ":" ++ Nat.repr n)
            scenarioChunks (occIdxs [] scenarioChunks) :=
  ⟨by decide, claim_C1 scenarioChunks (by decide)⟩

/-- Claim C2: for every chunk sequence satisfying the grouping invariant
(chunks with equal `(source, page)` adjacent), the identifiers assigned by
`calculate_chunk_ids` are pairwise distinct. -/
theorem claim_C2 (chunks : List Chunk) (hg : Grouped chunks) :
    ((calculate_chunk_ids chunks).map (fun c => c.id)).Nodup :=
  ids_nodup chunks hg

theorem claim_C2_witness :
    Grouped scenarioChunks
    ∧ ((calculate_chunk_ids scenarioChunks).map (fun c => c.id)).Nodup :=
  ⟨by decide, claim_C2 scenarioChunks (by decide)⟩

/-- Claim C3: ingestion is idempotent — after any successful populate run,
a second run with `reset=False` on the unchanged corpus (same documents,
same split, no collaborator faults) reports `new_documents_added == 0` and
leaves the store exactly as it was. -/
theorem claim_C3 (env : Env) (reset : Bool) (w : World) (hnom : env.nominal)
    (hsucc : (populate_database env reset w).1.success = true) :
    (populate_database env false
        (populate_database env reset w).2).1.new_documents_added = some 0
    ∧ (populate_database env false (populate_database env reset w).2).2.store
        = (populate_database env reset w).2.store := by
  obtain ⟨hde, hne, hall⟩ := populate_success_ids env reset w hnom hsucc
  obtain ⟨hl, hs, ho, hg, -, -, -⟩ := hnom
  rw [populate_noop env (populate_database env reset w).2 hl hs ho hg hde hne hall]
  exact ⟨rfl, rfl⟩

/-- A concrete corpus for the populate scenarios: one one-page document,
split one-to-one into a chunk. -/
def popEnv : Env :=
  { dataExists := true,
    docs := [⟨"doc1.pdf", 0, "xy"⟩],
    splitFn := fun ds => ds.map fun d => ⟨d.source, d.page, d.content, ""⟩ }

/-- The empty starting world: no store directory, empty call log. -/
def popW : World := { store := none, log := [] }

theorem claim_C3_witness :
    popEnv.nominal
    ∧ (populate_database popEnv true popW).1.success = true
    ∧ ((populate_database popEnv false
          (populate_database popEnv true popW).2).1.new_documents_added = some 0
       ∧ (populate_database popEnv false
            (populate_database popEnv true popW).2).2.store
           = (populate_database popEnv true popW).2.store) :=
  ⟨by decide, by decide, claim_C3 popEnv true popW (by decide) (by decide)⟩

/-- Claim C10: when the grouping precondition is violated — the key
sequence `A, B, A` — `calculate_chunk_ids` assigns the same identifier to
two distinct chunks, since the running index resets to 0 on every key
change and remembers nothing about earlier groups. -/
theorem claim_C10 :
    ¬ Grouped [⟨"a.pdf", 0, "t1", ""⟩, ⟨"b.pdf", 0, "t2", ""⟩, ⟨"a.pdf", 0, "t3", ""⟩]
    ∧ ((calculate_chunk_ids
          [⟨"a.pdf", 0, "t1", ""⟩, ⟨"b.pdf", 0, "t2", ""⟩, ⟨"a.pdf", 0, "t3", ""⟩]).map
            fun c => c.id)
        = ["a.pdf:0:0", "b.pdf:0:0", "a.pdf:0:0"]
    ∧ ((calculate_chunk_ids
          [⟨"a.pdf", 0, "t1", ""⟩, ⟨"b.pdf", 0, "t2", ""⟩, ⟨"a.pdf", 0, "t3", ""⟩])[0]?).map
            (fun c => c.id)
        = ((calculate_chunk_ids
          [⟨"a.pdf", 0, "t1", ""⟩, ⟨"b.pdf", 0, "t2", ""⟩, ⟨"a.pdf", 0, "t3", ""⟩])[2]?).map
            (fun c => c.id)
    ∧ (calculate_chunk_ids
          [⟨"a.pdf", 0, "t1", ""⟩, ⟨"b.pdf", 0, "t2", ""⟩, ⟨"a.pdf", 0, "t3", ""⟩])[0]?
        ≠ (calculate_chunk_ids
          [⟨"a.pdf", 0, "t1", ""⟩, ⟨"b.pdf", 0, "t2", ""⟩, ⟨"a.pdf", 0, "t3", ""⟩])[2]? :=
  ⟨by decide, by decide, by decide, by decide⟩

/-- Evaluation of `clear_chroma_database` when no collaborator faults. -/
theorem clear_chroma_eq (env : Env) (w : World)
    (ho : env.openFault = none) (hg : env.getFault = none)
    (hd : env.deleteFault = none) :
    clear_chroma_database env w =
      (if ((w.store.getD []).map fun r => r.rid).length > 0 then
        .ok ({ success := true,
               message := "🗑️ Deleted "
                 ++ Nat.repr ((w.store.getD []).map fun r => r.rid).length
                 ++ " documents from Chroma database.",
               chunks_deleted := ((w.store.getD []).map fun r => r.rid).length },
             { store := some ((w.store.getD []).filter
                 fun r => ! ((w.store.getD []).map fun rr => rr.rid).contains r.rid),
               log := w.log ++ [Op.opendb, Op.get,
                 Op.delete ((w.store.getD []).map fun r => r.rid)] })
       else
        .ok ({ success := true,
               message := "📂 No documents to delete in the Chroma database.",
               chunks_deleted := ((w.store.getD []).map fun r => r.rid).length },
             { store := w.store, log := w.log ++ [Op.opendb, Op.get] })) := by
  unfold clear_chroma_database storeIds
  rw [ho, hg, hd]
  simp only [List.append_assoc, List.cons_append, List.nil_append]

/-- Claim C5: against fault-free collaborators the reset operation always
returns success with `chunks_deleted` equal to the number N of identifiers
present before the call; after it a fetch of all identifiers is empty; when
N = 0 it reports the nothing-to-delete message and issues no delete call,
and when N > 0 it reports the deleted-count message and deletes exactly the
N fetched identifiers in one batch call. -/
theorem claim_C5 (env : Env) (w : World)
    (ho : env.openFault = none) (hg : env.getFault = none)
    (hd : env.deleteFault = none) :
    ∃ res w', clear_chroma_database env w = .ok (res, w')
      ∧ res.success = true
      ∧ res.chunks_deleted = (storeIds w).length
      ∧ storeIds w' = []
      ∧ ((storeIds w).length = 0 →
          res.message = "📂 No documents to delete in the Chroma database."
          ∧ ∀ ids, Op.delete ids ∉ w'.log.drop w.log.length)
      ∧ (0 < (storeIds w).length →
          res.message = "🗑️ Deleted " ++ Nat.repr (storeIds w).length
              ++ " documents from Chroma database."
          ∧ w'.log = w.log ++ [Op.opendb, Op.get, Op.delete (storeIds w)]) := by
  rw [clear_chroma_eq env w ho hg hd]
  by_cases hN : ((w.store.getD []).map fun r => r.rid).length > 0
  · rw [if_pos hN]
    have hfil : (w.store.getD []).filter
        (fun r => ! ((w.store.getD []).map fun rr => rr.rid).contains r.rid) = [] := by
      refine List.filter_eq_nil_iff.2 ?_
      intro r hr
      rw [contains_eq_true_of_mem (List.mem_map.2 ⟨r, hr, rfl⟩)]
      simp
    refine ⟨_, _, rfl, rfl, rfl, ?_, ?_, ?_⟩
    · rw [storeIds_def]
      simp only [Option.getD_some, hfil, List.map_nil]
    · intro h0
      rw [storeIds_def] at h0
      omega
    · intro _
      exact ⟨rfl, rfl⟩
  · rw [if_neg hN]
    have h0 : ((w.store.getD []).map fun r => r.rid).length = 0 := by omega
    have hnil : storeIds w = [] := by
      rw [storeIds_def]
      exact List.eq_nil_of_length_eq_zero h0
    refine ⟨_, _, rfl, rfl, rfl, ?_, ?_, ?_⟩
    · exact hnil
    · intro _
      refine ⟨rfl, ?_⟩
      intro ids hmem
      rw [List.drop_left] at hmem
      simp at hmem
    · intro hpos
      rw [storeIds_def] at hpos
      omega

/-- A store with two records, for exercising the reset operation. -/
def clearW : World :=
  { store := some [⟨"doc1.pdf:0:0", "t"⟩, ⟨"doc1.pdf:0:1", "u"⟩], log := [] }

theorem claim_C5_witness :
    (popEnv.openFault = none ∧ popEnv.getFault = none ∧ popEnv.deleteFault = none)
    ∧ (∃ res w', clear_chroma_database popEnv clearW = .ok (res, w')
        ∧ res.success = true
        ∧ res.chunks_deleted = (storeIds clearW).length
        ∧ storeIds w' = []
        ∧ ((storeIds clearW).length = 0 →
            res.message = "📂 No documents to delete in the Chroma database."
            ∧ ∀ ids, Op.delete ids ∉ w'.log.drop clearW.log.length)
        ∧ (0 < (storeIds clearW).length →
            res.message = "🗑️ Deleted " ++ Nat.repr (storeIds clearW).length
                ++ " documents from Chroma database."
            ∧ w'.log = clearW.log ++ [Op.opendb, Op.get, Op.delete (storeIds clearW)])) :=
  ⟨⟨rfl, rfl, rfl⟩, claim_C5 popEnv clearW rfl rfl rfl⟩

/-- An environment whose store fetch raises. -/
def faultGetEnv : Env :=
  { dataExists := true, docs := [], splitFn := fun _ => [],
    getFault := some "boom" }

/-- Counterexample to claim C4 as stated: the reset operation
`clear_chroma_database` has no exception handler, so a failing store fetch
propagates as an exception instead of being returned as a
`success == false` result. -/
theorem claim_C4_counterexample :
    clear_chroma_database faultGetEnv popW
      = Except.error ("boom", { store := none, log := [Op.opendb, Op.get] }) := rfl

/-- Claim C4 (amended): the ingestion operation `populate_database` never
lets a failure propagate — whenever its body raises an exception with
message `m`, the call returns a `success == false` result carrying `m`.
The reset operation `clear_chroma_database` has no handler and propagates
collaborator exceptions (see the counterexample). -/
theorem claim_C4 (env : Env) (reset : Bool) (w : World) (m : String) (w' : World)
    (herr : populate_body env reset w = .error (m, w')) :
    populate_database env reset w
      = ({ success := false, message := "Error populating database: " ++ m }, w') := by
  unfold populate_database
  rw [herr]

/-- An environment whose document loader raises. -/
def faultLoadEnv : Env :=
  { dataExists := true, docs := [], splitFn := fun _ => [],
    loadFault := some "io error" }

theorem claim_C4_witness :
    populate_body faultLoadEnv false popW
        = .error ("io error", { store := none, log := [Op.load] })
    ∧ populate_database faultLoadEnv false popW
        = ({ success := false, message := "Error populating database: io error" },
           { store := none, log := [Op.load] }) :=
  ⟨rfl, claim_C4 faultLoadEnv false popW "io error" _ rfl⟩

/-- Claim C9: `populate(reset=True)` destroys the store directory before
the data-directory check; when the data directory is missing the call
returns a failure result, yet the store has already been removed (and is
not restored). -/
theorem claim_C9 (env : Env) (w : World)
    (hr : env.rmtreeFault = none) (hde : env.dataExists = false) :
    (populate_database env true w).1.success = false
    ∧ (populate_database env true w).1.message
        = "Data directory 'data' not found. Please create it and add PDF files."
    ∧ (populate_database env true w).2.store = none
    ∧ (w.store.isSome = true →
        (populate_database env true w).2.log = w.log ++ [Op.rmtree]) := by
  have hpd : populate_database env true w
      = ({ success := false,
           message := "Data directory 'data' not found. Please create it and add PDF files." },
         if w.store.isSome = true then { store := none, log := w.log ++ [Op.rmtree] }
         else w) := by
    unfold populate_database populate_body
    rw [if_pos rfl, clear_database_nominal env w hr]
    simp only []
    rw [if_pos (show ¬ env.dataExists = true by rw [hde]; simp)]
  rw [hpd]
  refine ⟨rfl, rfl, ?_, ?_⟩
  · by_cases hsome : w.store.isSome = true
    · rw [if_pos hsome]
    · rw [if_neg hsome]
      cases hs : w.store with
      | none => rfl
      | some l =>
        rw [hs] at hsome
        exact absurd rfl hsome
  · intro hsome
    rw [if_pos hsome]

/-- An environment whose data directory is missing. -/
def noDataEnv : Env := { dataExists := false, docs := [], splitFn := fun _ => [] }

theorem claim_C9_witness :
    (noDataEnv.rmtreeFault = none ∧ noDataEnv.dataExists = false)
    ∧ ((populate_database noDataEnv true clearW).1.success = false
       ∧ (populate_database noDataEnv true clearW).1.message
           = "Data directory 'data' not found. Please create it and add PDF files."
       ∧ (populate_database noDataEnv true clearW).2.store = none
       ∧ (clearW.store.isSome = true →
           (populate_database noDataEnv true clearW).2.log
             = clearW.log ++ [Op.rmtree])) :=
  ⟨⟨rfl, rfl⟩, claim_C9 noDataEnv clearW rfl rfl⟩

/-- Claim C7: precondition failures are detected without exceptions and
give distinct failure results: a missing data directory yields
`success == false` with the "not found" message and no processing call
beyond the optional directory removal; an existing directory with no
documents yields `success == false` with the distinct
"No PDF documents found" message. -/
theorem claim_C7 (env : Env) (reset : Bool) (w : World)
    (hr : env.rmtreeFault = none) (hl : env.loadFault = none) :
    (env.dataExists = false →
      (populate_database env reset w).1.success = false
      ∧ (populate_database env reset w).1.message
          = "Data directory 'data' not found. Please create it and add PDF files."
      ∧ "not found".data <:+: (populate_database env reset w).1.message.data
      ∧ ∀ op ∈ (populate_database env reset w).2.log.drop w.log.length,
          op = Op.rmtree)
    ∧ (env.dataExists = true → env.docs = [] →
      (populate_database env reset w).1.success = false
      ∧ (populate_database env reset w).1.message
          = "No PDF documents found in 'data' directory."
      ∧ "No PDF documents found".data <:+: (populate_database env reset w).1.message.data
      ∧ "Data directory 'data' not found. Please create it and add PDF files."
          ≠ "No PDF documents found in 'data' directory.") := by
  obtain ⟨w1, hw1, hw1log⟩ : ∃ w1,
      (if reset = true then clear_database env w else Except.ok w) = .ok w1
      ∧ (w1.log = w.log ∨ w1.log = w.log ++ [Op.rmtree]) := by
    by_cases hres : reset = true
    · rw [if_pos hres, clear_database_nominal env w hr]
      by_cases hsome : w.store.isSome = true
      · rw [if_pos hsome]
        exact ⟨_, rfl, Or.inr rfl⟩
      · rw [if_neg hsome]
        exact ⟨w, rfl, Or.inl rfl⟩
    · rw [if_neg hres]
      exact ⟨w, rfl, Or.inl rfl⟩
  constructor
  · intro hde
    have hpd : populate_database env reset w
        = ({ success := false,
             message := "Data directory 'data' not found. Please create it and add PDF files." },
           w1) := by
      unfold populate_database populate_body
      rw [hw1]
      simp only []
      rw [if_pos (show ¬ env.dataExists = true by rw [hde]; simp)]
    rw [hpd]
    refine ⟨rfl, rfl, ?_, ?_⟩
    · show "not found".data <:+:
        "Data directory 'data' not found. Please create it and add PDF files.".data
      decide
    rcases hw1log with h | h
    · rw [h, List.drop_length]
      intro op hop
      exact absurd hop (List.not_mem_nil op)
    · rw [h, List.drop_left]
      intro op hop
      rw [List.mem_singleton] at hop
      exact hop
  · intro hde hdocs
    have hpd : populate_database env reset w
        = ({ success := false,
             message := "No PDF documents found in 'data' directory." },
           { store := w1.store, log := w1.log ++ [Op.load] }) := by
      unfold populate_database populate_body
      rw [hw1]
      simp only []
      rw [if_neg (show ¬ ¬ env.dataExists = true by rw [hde]; simp)]
      simp only [load_documents, hl]
      rw [if_pos (show env.docs.isEmpty = true by rw [hdocs]; rfl)]
    rw [hpd]
    refine ⟨rfl, rfl, ?_, by decide⟩
    show "No PDF documents found".data <:+:
      "No PDF documents found in 'data' directory.".data
    decide

theorem claim_C7_witness :
    (noDataEnv.rmtreeFault = none ∧ noDataEnv.loadFault = none)
    ∧ ((noDataEnv.dataExists = false →
        (populate_database noDataEnv false popW).1.success = false
        ∧ (populate_database noDataEnv false popW).1.message
            = "Data directory 'data' not found. Please create it and add PDF files."
        ∧ "not found".data <:+: (populate_database noDataEnv false popW).1.message.data
        ∧ ∀ op ∈ (populate_database noDataEnv false popW).2.log.drop popW.log.length,
            op = Op.rmtree)
      ∧ (noDataEnv.dataExists = true → noDataEnv.docs = [] →
        (populate_database noDataEnv false popW).1.success = false
        ∧ (populate_database noDataEnv false popW).1.message
            = "No PDF documents found in 'data' directory."
        ∧ "No PDF documents found".data <:+:
            (populate_database noDataEnv false popW).1.message.data
        ∧ "Data directory 'data' not found. Please create it and add PDF files."
            ≠ "No PDF documents found in 'data' directory.")) :=
  ⟨⟨rfl, rfl⟩, claim_C7 noDataEnv false popW rfl rfl⟩

/-- Claim C8: on success, populate reports exactly the number of loaded
documents, the number of chunks produced by splitting, and the count of
chunks whose identifier was absent from the store, with `success = true`. -/
theorem claim_C8 (env : Env) (w : World)
    (hl : env.loadFault = none) (hs : env.splitFault = none)
    (ho : env.openFault = none) (hg : env.getFault = none)
    (ha : env.addFault = none)
    (hde : env.dataExists = true) (hne : env.docs ≠ []) :
    (populate_database env false w).1.success = true
    ∧ (populate_database env false w).1.documents_processed = some env.docs.length
    ∧ (populate_database env false w).1.chunks_created
        = some (env.splitFn env.docs).length
    ∧ (populate_database env false w).1.new_documents_added
        = some (((calculate_chunk_ids (env.splitFn env.docs)).filter
            fun c => ! (storeIds w).contains c.id).length) := by
  unfold populate_database populate_body
  rw [if_neg (show ¬ (false = true) by simp)]
  simp only []
  rw [if_neg (show ¬ ¬ env.dataExists = true by rw [hde]; simp)]
  simp only [load_documents, hl]
  have hdocs : env.docs.isEmpty = false := by
    cases hd : env.docs
    · exact absurd hd hne
    · rfl
  rw [if_neg (show ¬ env.docs.isEmpty = true by rw [hdocs]; simp)]
  simp only [split_documents, hs]
  rw [add_to_chroma_eq env (env.splitFn env.docs)
    { store := w.store, log := w.log ++ [Op.load] ++ [Op.split] } ho hg]
  rw [show storeIds { store := w.store, log := w.log ++ [Op.load] ++ [Op.split] }
      = storeIds w from rfl]
  by_cases hlen : ((calculate_chunk_ids (env.splitFn env.docs)).filter
      fun c => ! (storeIds w).contains c.id).length ≠ 0
  · rw [if_pos hlen, ha]
    simp only []
    exact ⟨trivial, trivial, trivial, trivial⟩
  · rw [if_neg hlen]
    simp only []
    refine ⟨trivial, trivial, trivial, ?_⟩
    simp only [Option.some.injEq]
    omega

theorem claim_C8_witness :
    (popEnv.loadFault = none ∧ popEnv.splitFault = none ∧ popEnv.openFault = none
      ∧ popEnv.getFault = none ∧ popEnv.addFault = none
      ∧ popEnv.dataExists = true ∧ popEnv.docs ≠ [])
    ∧ ((populate_database popEnv false popW).1.success = true
       ∧ (populate_database popEnv false popW).1.documents_processed
           = some popEnv.docs.length
       ∧ (populate_database popEnv false popW).1.chunks_created
           = some (popEnv.splitFn popEnv.docs).length
       ∧ (populate_database popEnv false popW).1.new_documents_added
           = some (((calculate_chunk_ids (popEnv.splitFn popEnv.docs)).filter
               fun c => ! (storeIds popW).contains c.id).length)) :=
  ⟨⟨rfl, rfl, rfl, rfl, rfl, rfl, by decide⟩,
   claim_C8 popEnv popW rfl rfl rfl rfl rfl rfl (by decide)⟩

/-- Claim C6: ingestion (`populate` with `reset=False`) never mutates or
overwrites existing store records: the resulting store is the old record
list extended by records whose identifiers were absent, and every add call
issued carries only identifiers absent from the store. -/
theorem claim_C6 (env : Env) (w : World)
    (hl : env.loadFault = none) (hs : env.splitFault = none)
    (ho : env.openFault = none) (hg : env.getFault = none)
    (ha : env.addFault = none) :
    ∃ added : List StoreRec,
      ((populate_database env false w).2.store.getD [])
          = (w.store.getD []) ++ added
      ∧ (∀ rec ∈ added, rec.rid ∉ storeIds w)
      ∧ (∀ ids, Op.add ids ∈ (populate_database env false w).2.log.drop w.log.length →
          ∀ i ∈ ids, i ∉ storeIds w) := by
  by_cases hde : env.dataExists = true
  · by_cases hdocs : env.docs.isEmpty = true
    · have hpd : populate_database env false w
          = ({ success := false,
               message := "No PDF documents found in 'data' directory." },
             { store := w.store, log := w.log ++ [Op.load] }) := by
        unfold populate_database populate_body
        rw [if_neg (show ¬ (false = true) by simp)]
        simp only []
        rw [if_neg (show ¬ ¬ env.dataExists = true by rw [hde]; simp)]
        simp only [load_documents, hl]
        rw [if_pos hdocs]
      rw [hpd]
      refine ⟨[], (List.append_nil _).symm, ?_, ?_⟩
      · intro rec h
        exact absurd h (List.not_mem_nil _)
      · intro ids hmem
        rw [List.drop_left] at hmem
        rw [List.mem_singleton] at hmem
        exact Op.noConfusion hmem
    · unfold populate_database populate_body
      rw [if_neg (show ¬ (false = true) by simp)]
      simp only []
      rw [if_neg (show ¬ ¬ env.dataExists = true by rw [hde]; simp)]
      simp only [load_documents, hl]
      rw [if_neg hdocs]
      simp only [split_documents, hs]
      rw [add_to_chroma_eq env (env.splitFn env.docs)
        { store := w.store, log := w.log ++ [Op.load] ++ [Op.split] } ho hg]
      rw [show storeIds { store := w.store, log := w.log ++ [Op.load] ++ [Op.split] }
          = storeIds w from rfl]
      by_cases hlen : ((calculate_chunk_ids (env.splitFn env.docs)).filter
          fun c => ! (storeIds w).contains c.id).length ≠ 0
      · rw [if_pos hlen, ha]
        simp only []
        refine ⟨((calculate_chunk_ids (env.splitFn env.docs)).filter
            fun c => ! (storeIds w).contains c.id).map
              fun c => { rid := c.id, text := c.content }, ?_, ?_, ?_⟩
        · rfl
        · intro rec hrec
          obtain ⟨c, hc, hceq⟩ := List.mem_map.1 hrec
          have h2 := (List.mem_filter.1 hc).2
          intro habs
          rw [← hceq] at habs
          rw [contains_eq_true_of_mem habs] at h2
          exact absurd h2 (by decide)
        · intro ids hmem i hi
          simp only [List.append_assoc] at hmem
          rw [List.drop_left] at hmem
          simp only [List.mem_cons, List.mem_append, List.mem_singleton,
            List.not_mem_nil, or_false] at hmem
          rcases hmem with h | h | h | h | h
          · exact Op.noConfusion h
          · exact Op.noConfusion h
          · exact Op.noConfusion h
          · exact Op.noConfusion h
          · have hids : ids = ((calculate_chunk_ids (env.splitFn env.docs)).filter
                fun c => ! (storeIds w).contains c.id).map fun c => c.id := by
              injection h
            rw [hids] at hi
            obtain ⟨c, hc, hceq⟩ := List.mem_map.1 hi
            have h2 := (List.mem_filter.1 hc).2
            intro habs
            rw [← hceq] at habs
            rw [contains_eq_true_of_mem habs] at h2
            exact absurd h2 (by decide)
      · rw [if_neg hlen]
        simp only []
        refine ⟨[], (List.append_nil _).symm, ?_, ?_⟩
        · intro rec h
          exact absurd h (List.not_mem_nil _)
        · intro ids hmem
          simp only [List.append_assoc] at hmem
          rw [List.drop_left] at hmem
          simp only [List.mem_cons, List.mem_append, List.mem_singleton,
            List.not_mem_nil, or_false] at hmem
          rcases hmem with h | h | h | h
          · exact Op.noConfusion h
          · exact Op.noConfusion h
          · exact Op.noConfusion h
          · exact Op.noConfusion h
  · have hpd : populate_database env false w
        = ({ success := false,
             message := "Data directory 'data' not found. Please create it and add PDF files." },
           w) := by
      unfold populate_database populate_body
      rw [if_neg (show ¬ (false = true) by simp)]
      simp only []
      rw [if_pos hde]
    rw [hpd]
    refine ⟨[], (List.append_nil _).symm, ?_, ?_⟩
    · intro rec h
      exact absurd h (List.not_mem_nil _)
    · intro ids hmem
      rw [List.drop_length] at hmem
      exact absurd hmem (List.not_mem_nil _)

theorem claim_C6_witness :
    (popEnv.loadFault = none ∧ popEnv.splitFault = none ∧ popEnv.openFault = none
      ∧ popEnv.getFault = none ∧ popEnv.addFault = none)
    ∧ (∃ added : List StoreRec,
        ((populate_database popEnv false clearW).2.store.getD [])
            = (clearW.store.getD []) ++ added
        ∧ (∀ rec ∈ added, rec.rid ∉ storeIds clearW)
        ∧ (∀ ids,
            Op.add ids ∈ (populate_database popEnv false clearW).2.log.drop
              clearW.log.length →
            ∀ i ∈ ids, i ∉ storeIds clearW)) :=
  ⟨⟨rfl, rfl, rfl, rfl, rfl⟩, claim_C6 popEnv clearW rfl rfl rfl rfl rfl⟩
